import Mathlib

/-!
Verification of the Walled Garden spam-checker module
(`modules/admin_spam_checker.py`): a shallow embedding of its data model
and decision functions, with theorems settling the specified properties.

Modelling conventions:
* Python `time.time()` is threaded as an explicit `now : Nat` parameter
  (seconds).  `now - created_at > ttl` uses truncated `Nat` subtraction,
  which agrees with the Python comparison for `now < created_at`
  (both yield `False`).
* Python dictionaries become association lists with `alookup` / `aset`
  (insert-or-overwrite) / `aerase` (delete).
* `NOT_SPAM` and `(Codes.FORBIDDEN, msg)` verdicts become the `Verdict`
  inductive.
-/

set_option autoImplicit false
set_option linter.unusedVariables false

namespace WalledGardenModel

/-- First-match lookup in an association list (Python `d[k]` / `k in d`). -/
def alookup {α : Type} (k : String) : List (String × α) → Option α
  | [] => none
  | (k1, v) :: rest => if k1 = k then some v else alookup k rest

/-- Delete a key (Python `del d[k]`). -/
def aerase {α : Type} (k : String) (l : List (String × α)) : List (String × α) :=
  l.filter (fun p => p.1 ≠ k)

/-- Insert or overwrite a key (Python `d[k] = v`). -/
def aset {α : Type} (k : String) (v : α) (l : List (String × α)) : List (String × α) :=
  (k, v) :: aerase k l

/-- Value stored in `DMTracker._dm_rooms`: `{"creator": ..., "created_at": ...}`. -/
structure TrackedInfo where
  creator : String
  created_at : Nat
  deriving DecidableEq, Repr

/-- The tracked-DM-rooms table of `DMTracker`. -/
abbrev DmRooms := List (String × TrackedInfo)

/-- `DMTracker._cleanup_expired`: drop every entry whose age exceeds the TTL. -/
def cleanupExpired (ttl now : Nat) (rooms : DmRooms) : DmRooms :=
  rooms.filter (fun p => ¬ (now - p.2.created_at > ttl))

/-- `DMTracker.add_dm_room`: record the room with its creator and creation time. -/
def addDmRoom (room_id creator_user_id : String) (now : Nat) (rooms : DmRooms) : DmRooms :=
  aset room_id ⟨creator_user_id, now⟩ rooms

/-- `DMTracker.can_invite_to_dm`: after lazily expiring old entries, the room
must be tracked and its recorded creator must equal the inviter.  Returns the
boolean answer together with the (possibly cleaned) table, since the cleanup
mutates `_dm_rooms`. -/
def canInviteToDm (ttl now : Nat) (room_id inviter_user_id : String) (rooms : DmRooms) :
    Bool × DmRooms :=
  let rooms1 := cleanupExpired ttl now rooms
  match alookup room_id rooms1 with
  | none => (false, rooms1)
  | some info => (info.creator == inviter_user_id, rooms1)

/-- `DMTracker.remove_dm_room`: delete the entry if present. -/
def removeDmRoom (room_id : String) (rooms : DmRooms) : DmRooms :=
  aerase room_id rooms

/-- Python `str.strip()` whitespace characters (the ASCII ones relevant here). -/
def pyIsSpace (c : Char) : Bool :=
  c = ' ' || c = '\t' || c = '\n' || c = '\x0d' || c = '\x0b' || c = '\x0c'

/-- Python `s.strip()` on the character list of a string. -/
def pyStripChars (l : List Char) : List Char :=
  ((l.dropWhile pyIsSpace).reverse.dropWhile pyIsSpace).reverse

/-- Python truthiness test `if field and field.strip():` applied to an
optional string field of the room config (`None` and `""` are falsy, and a
whitespace-only string strips to the falsy `""`). -/
def presentAndStripTruthy : Option String → Bool
  | none => false
  | some s => !s.data.isEmpty && !(pyStripChars s.data).isEmpty

/-- The room-creation request payload, with the seven fields
`_is_legitimate_dm_creation` reads, at the types the happy path expects
(`JsonDict` values of other types are out of scope of the classifier claims,
except that an absent field models `dict.get` returning `None`). -/
structure RoomConfig where
  is_direct : Option Bool
  preset : Option String
  invite : Option (List String)
  name : Option String
  topic : Option String
  room_alias_name : Option String
  visibility : Option String
  deriving DecidableEq, Repr

/-- `WalledGarden._is_legitimate_dm_creation`, branch for branch. -/
def isLegitimateDMCreation (rc : RoomConfig) : Bool :=
  let is_direct := rc.is_direct == some true
  let has_dm_preset := rc.preset == some "trusted_private_chat"
  if !(is_direct || has_dm_preset) then false
  else
    let invite_list := rc.invite.getD []
    if invite_list.length > 1 then false
    else if presentAndStripTruthy rc.name then false
    else if presentAndStripTruthy rc.topic then false
    else if presentAndStripTruthy rc.room_alias_name then false
    else if rc.visibility.getD "private" ≠ "private" then false
    else true

/-- `WalledGarden._extract_username`: strip a leading `@`, then keep the part
before the first `:` (Python `user_id.split(":", 1)[0]`), working on the
character list of the string. -/
def extractUsername (user_id : String) : String :=
  let l :=
    match user_id.data with
    | '@' :: rest => rest
    | other => other
  if l.contains ':' then ⟨l.takeWhile (fun c => c ≠ ':')⟩ else ⟨l⟩

/-- The processed module configuration (`self.config`) at the types the
decision callbacks rely on; `dm_tracker` being set is equivalent to
`allow_dm_creation` (see `__init__`). -/
structure ProcessedConfig where
  admin_usernames : List String
  allow_admin_invites_only : Bool
  allow_admin_room_creation_only : Bool
  allow_admin_aliases_only : Bool
  allow_admin_publishing_only : Bool
  allow_dm_creation : Bool
  dm_invite_ttl_seconds : Nat
  invite_rejection_message : String
  room_creation_rejection_message : String
  alias_rejection_message : String
  publish_rejection_message : String
  deriving DecidableEq, Repr

/-- `WalledGarden._is_admin`. -/
def isAdmin (cfg : ProcessedConfig) (user_id : String) : Bool :=
  cfg.admin_usernames.contains (extractUsername user_id)

/-- A spam-checker verdict: `NOT_SPAM` or `(Codes.FORBIDDEN, message)`. -/
inductive Verdict where
  | notSpam
  | forbidden (msg : String)
  deriving DecidableEq, Repr

/-- The module's mutable correlation state: `DMTracker._dm_rooms` and
`WalledGarden._recent_dm_creations` (actor user id mapped to the
`time.time()` at which the DM-creation request was approved). -/
structure GardenState where
  dm_rooms : DmRooms
  recent_dm_creations : List (String × Nat)
  deriving DecidableEq, Repr

/-- `WalledGarden.user_may_invite`.  Statefully follows the source:
gate check, admin check, tracked-room path (`can_invite_to_dm` then
`remove_dm_room`), pending-creation path (membership in
`_recent_dm_creations`, which tracks the room and consumes the pending
entry), otherwise rejection. -/
def userMayInvite (cfg : ProcessedConfig) (now : Nat) (inviter invitee room_id : String)
    (st : GardenState) : Verdict × GardenState :=
  if !cfg.allow_admin_invites_only then (.notSpam, st)
  else if isAdmin cfg inviter then (.notSpam, st)
  else if cfg.allow_dm_creation then
    let checked := canInviteToDm cfg.dm_invite_ttl_seconds now room_id inviter st.dm_rooms
    let st1 : GardenState := { st with dm_rooms := checked.2 }
    if checked.1 then
      (.notSpam, { st1 with dm_rooms := removeDmRoom room_id st1.dm_rooms })
    else
      match alookup inviter st1.recent_dm_creations with
      | some _ =>
          (.notSpam,
           { dm_rooms := addDmRoom room_id inviter now st1.dm_rooms,
             recent_dm_creations := aerase inviter st1.recent_dm_creations })
      | none => (.forbidden cfg.invite_rejection_message, st1)
  else (.forbidden cfg.invite_rejection_message, st)

/-- `WalledGarden.user_may_create_room`. -/
def userMayCreateRoom (cfg : ProcessedConfig) (now : Nat) (user_id : String)
    (rc : RoomConfig) (st : GardenState) : Verdict × GardenState :=
  if !cfg.allow_admin_room_creation_only then (.notSpam, st)
  else if isAdmin cfg user_id then (.notSpam, st)
  else if cfg.allow_dm_creation && isLegitimateDMCreation rc then
    (.notSpam, { st with recent_dm_creations := aset user_id now st.recent_dm_creations })
  else (.forbidden cfg.room_creation_rejection_message, st)

/-- `WalledGarden.user_may_create_room_alias` (touches no correlation state). -/
def userMayCreateRoomAlias (cfg : ProcessedConfig) (user_id room_alias : String) : Verdict :=
  if !cfg.allow_admin_aliases_only then .notSpam
  else if isAdmin cfg user_id then .notSpam
  else .forbidden cfg.alias_rejection_message

/-- `WalledGarden.user_may_publish_room` (touches no correlation state). -/
def userMayPublishRoom (cfg : ProcessedConfig) (user_id room_id : String) : Verdict :=
  if !cfg.allow_admin_publishing_only then .notSpam
  else if isAdmin cfg user_id then .notSpam
  else .forbidden cfg.publish_rejection_message

/-- A room-creation event payload as read by `_check_room_creation_event`
(`event.get("type")`, `event.get("room_id")`, `event.get("sender")`). -/
structure CreateEvent where
  type : Option String
  room_id : Option String
  sender : Option String
  deriving DecidableEq, Repr

/-- Python truthiness of `event.get(...)` for a string field: `None` and the
empty string are falsy. -/
def optStrFalsy : Option String → Bool
  | none => true
  | some s => s.data.isEmpty

/-- `WalledGarden._check_room_creation_event`: promote a pending creation to
a tracked DM room when the creation event arrives; always returns `NOT_SPAM`. -/
def checkRoomCreationEvent (cfg : ProcessedConfig) (now : Nat) (ev : CreateEvent)
    (st : GardenState) : Verdict × GardenState :=
  if ev.type ≠ some "m.room.create" then (.notSpam, st)
  else if optStrFalsy ev.room_id || optStrFalsy ev.sender || !cfg.allow_dm_creation then
    (.notSpam, st)
  else
    let room_id := ev.room_id.getD ""
    let creator := ev.sender.getD ""
    match alookup creator st.recent_dm_creations with
    | some _ =>
        let checked := canInviteToDm cfg.dm_invite_ttl_seconds now room_id creator st.dm_rooms
        let rooms2 := if checked.1 then checked.2 else addDmRoom room_id creator now checked.2
        (.notSpam,
         { dm_rooms := rooms2, recent_dm_creations := aerase creator st.recent_dm_creations })
    | none => (.notSpam, st)

/-- A JSON-ish configuration value, as found in the loosely-typed `config`
dictionary handed to `_parse_and_validate_config`. -/
inductive JVal where
  | jBool (b : Bool)
  | jInt (n : Int)
  | jStr (s : String)
  | jList (xs : List JVal)

/-- Python `isinstance(v, int)`: `bool` is a subclass of `int`. -/
def pyIsInstanceInt : JVal → Bool
  | .jInt _ => true
  | .jBool _ => true
  | _ => false

/-- The integer value of a Python int-like value (`True == 1`, `False == 0`). -/
def pyIntValue : JVal → Int
  | .jInt n => n
  | .jBool b => if b then 1 else 0
  | _ => 0

/-- The raw `config` dictionary restricted to the keys the module reads
(an absent key models `dict.get` falling back to its default). -/
structure RawConfig where
  admin_usernames : Option JVal
  allow_admin_invites_only : Option JVal
  allow_admin_room_creation_only : Option JVal
  allow_admin_aliases_only : Option JVal
  allow_admin_publishing_only : Option JVal
  allow_dm_creation : Option JVal
  dm_invite_ttl_seconds : Option JVal
  invite_rejection_message : Option JVal
  room_creation_rejection_message : Option JVal
  alias_rejection_message : Option JVal
  publish_rejection_message : Option JVal

/-- The dictionary `_parse_and_validate_config` returns.  Only
`admin_usernames`, `allow_dm_creation` and (partially) the TTL are
validated; every other value is stored as found. -/
structure ParsedConfig where
  admin_usernames : List String
  allow_admin_invites_only : JVal
  allow_admin_room_creation_only : JVal
  allow_admin_aliases_only : JVal
  allow_admin_publishing_only : JVal
  allow_dm_creation : Bool
  dm_invite_ttl_seconds : JVal
  invite_rejection_message : JVal
  room_creation_rejection_message : JVal
  alias_rejection_message : JVal
  publish_rejection_message : JVal

/-- Validation of one entry of `admin_usernames`: it must be a string and must
not contain `@` or `:`. -/
def validateAdminName (v : JVal) : Except String String :=
  match v with
  | .jStr s =>
      if s.contains '@' || s.contains ':' then
        .error "Admin username should be local part only (no at-sign or colon)"
      else .ok s
  | _ => .error "Admin username must be a string"

/-- The `for username in admin_usernames` validation loop. -/
def validateAdminNames : List JVal → Except String (List String)
  | [] => .ok []
  | v :: rest =>
      match validateAdminName v with
      | .error e => .error e
      | .ok s =>
          match validateAdminNames rest with
          | .error e => .error e
          | .ok ss => .ok (s :: ss)

/-- `WalledGarden._parse_and_validate_config`, raising `ConfigError` as
`Except.error` and otherwise producing the processed dictionary with the
documented defaults filled in. -/
def parseAndValidateConfig (c : RawConfig) : Except String ParsedConfig :=
  match c.admin_usernames.getD (JVal.jList []) with
  | .jList xs =>
      match validateAdminNames xs with
      | .error e => .error e
      | .ok names =>
          match c.allow_dm_creation.getD (JVal.jBool false) with
          | .jBool dm =>
              let ttlv := c.dm_invite_ttl_seconds.getD (JVal.jInt 300)
              if pyIsInstanceInt ttlv = false ∨ pyIntValue ttlv ≤ 0 then
                .error "dm_invite_ttl_seconds must be a positive integer"
              else
                .ok { admin_usernames := names,
                      allow_admin_invites_only :=
                        c.allow_admin_invites_only.getD (JVal.jBool true),
                      allow_admin_room_creation_only :=
                        c.allow_admin_room_creation_only.getD (JVal.jBool true),
                      allow_admin_aliases_only :=
                        c.allow_admin_aliases_only.getD (JVal.jBool true),
                      allow_admin_publishing_only :=
                        c.allow_admin_publishing_only.getD (JVal.jBool true),
                      allow_dm_creation := dm,
                      dm_invite_ttl_seconds := ttlv,
                      invite_rejection_message :=
                        c.invite_rejection_message.getD (JVal.jStr
                          "Only server administrators may invite users. Please contact an admin."),
                      room_creation_rejection_message :=
                        c.room_creation_rejection_message.getD (JVal.jStr
                          "Only server administrators may create new rooms/channels. Please contact an admin."),
                      alias_rejection_message :=
                        c.alias_rejection_message.getD (JVal.jStr
                          "Only server administrators may create room aliases."),
                      publish_rejection_message :=
                        c.publish_rejection_message.getD (JVal.jStr
                          "Only server administrators may publish rooms to the directory.") }
          | _ => .error "allow_dm_creation must be a boolean"
  | _ => .error "admin_usernames must be a list"

/-- Whether an `Except` result is an error (a raised `ConfigError`). -/
def exceptIsError {α : Type} : Except String α → Bool
  | .error _ => true
  | .ok _ => false

/-- An `admin_usernames` entry the source rejects. -/
def adminNameBad (v : JVal) : Bool :=
  match v with
  | .jStr s => s.contains '@' || s.contains ':'
  | _ => true

/-- Exactly the configurations `_parse_and_validate_config` rejects, written
as a flat condition: bad admin-username list, non-boolean
`allow_dm_creation`, or a TTL that is not a positive Python integer.  The
four gating flags and the four message strings never appear here. -/
def configRejected (c : RawConfig) : Bool :=
  (match c.admin_usernames.getD (JVal.jList []) with
   | .jList xs => xs.any adminNameBad
   | _ => true) ||
  (match c.allow_dm_creation.getD (JVal.jBool false) with
   | .jBool _ => false
   | _ => true) ||
  (let ttlv := c.dm_invite_ttl_seconds.getD (JVal.jInt 300)
   !pyIsInstanceInt ttlv || decide (pyIntValue ttlv ≤ 0))

/-- The string entries of the admin-username list (total on all accepted
lists). -/
def goodAdminNames (xs : List JVal) : List String :=
  xs.filterMap (fun v => match v with | .jStr s => some s | _ => none)

/-- The processed configuration an accepted raw configuration yields: each
unvalidated or defaulted field via `dict.get`. -/
def fillDefaults (c : RawConfig) : ParsedConfig :=
  { admin_usernames :=
      (match c.admin_usernames.getD (JVal.jList []) with
       | .jList xs => goodAdminNames xs
       | _ => []),
    allow_admin_invites_only := c.allow_admin_invites_only.getD (JVal.jBool true),
    allow_admin_room_creation_only := c.allow_admin_room_creation_only.getD (JVal.jBool true),
    allow_admin_aliases_only := c.allow_admin_aliases_only.getD (JVal.jBool true),
    allow_admin_publishing_only := c.allow_admin_publishing_only.getD (JVal.jBool true),
    allow_dm_creation :=
      (match c.allow_dm_creation.getD (JVal.jBool false) with
       | .jBool b => b
       | _ => false),
    dm_invite_ttl_seconds := c.dm_invite_ttl_seconds.getD (JVal.jInt 300),
    invite_rejection_message :=
      c.invite_rejection_message.getD (JVal.jStr
        "Only server administrators may invite users. Please contact an admin."),
    room_creation_rejection_message :=
      c.room_creation_rejection_message.getD (JVal.jStr
        "Only server administrators may create new rooms/channels. Please contact an admin."),
    alias_rejection_message :=
      c.alias_rejection_message.getD (JVal.jStr
        "Only server administrators may create room aliases."),
    publish_rejection_message :=
      c.publish_rejection_message.getD (JVal.jStr
        "Only server administrators may publish rooms to the directory.") }

/-- One thread of the tracked-room consumption in `user_may_invite`.
`DMTracker`'s methods each hold `self._lock`, so `can_invite_to_dm` and
`remove_dm_room` are individually atomic, but the lock is released between
them: `pc = 0` is "about to run `can_invite_to_dm`", `pc = 1` is "check
succeeded, about to run `remove_dm_room`", `pc = 2` is done.  `allowed`
records whether this thread's invite decision takes the tracked-room
allow path. -/
structure TakeThread where
  pc : Nat
  allowed : Bool
  deriving DecidableEq, Repr

/-- One atomic step of a consumption thread. -/
def takeStep (ttl now : Nat) (room_id actor : String) (t : TakeThread) (rooms : DmRooms) :
    TakeThread × DmRooms :=
  match t.pc with
  | 0 =>
      let checked := canInviteToDm ttl now room_id actor rooms
      (⟨if checked.1 then 1 else 2, checked.1⟩, checked.2)
  | 1 => (⟨2, t.allowed⟩, removeDmRoom room_id rooms)
  | _ => (t, rooms)

/-- Run two concurrent consumption threads under a schedule: `true` steps
thread 1, `false` steps thread 2. -/
def runSchedule (ttl now : Nat) (room_id actor : String) :
    List Bool → TakeThread × TakeThread × DmRooms → TakeThread × TakeThread × DmRooms
  | [], s => s
  | b :: rest, (t1, t2, rooms) =>
      if b then
        let s1 := takeStep ttl now room_id actor t1 rooms
        runSchedule ttl now room_id actor rest (s1.1, t2, s1.2)
      else
        let s2 := takeStep ttl now room_id actor t2 rooms
        runSchedule ttl now room_id actor rest (t1, s2.1, s2.2)

/-- Condition 1 of the DM contract, in the spec's words: the direct flag is
true or the preset equals `trusted_private_chat`. -/
def specDmDirectFlag (rc : RoomConfig) : Bool :=
  rc.is_direct == some true || rc.preset == some "trusted_private_chat"

/-- Condition 2: the invite list has at most one entry. -/
def specDmInviteLenOk (rc : RoomConfig) : Bool :=
  decide ((rc.invite.getD []).length ≤ 1)

/-- A string field that is present and contains a non-whitespace character:
what "a non-empty name/topic/alias is present" means once whitespace-only
values are treated as absent (conditions 3-5). -/
def nonBlankPresent : Option String → Bool
  | none => false
  | some s => s.data.any (fun c => !pyIsSpace c)

/-- Condition 6: visibility is `private`, or absent (defaulting to private). -/
def specDmVisibilityOk (rc : RoomConfig) : Bool :=
  rc.visibility == none || rc.visibility == some "private"

/-- The spec's DM contract: the conjunction of its six conditions. -/
def specLegitimateDM (rc : RoomConfig) : Bool :=
  specDmDirectFlag rc && specDmInviteLenOk rc && !nonBlankPresent rc.name &&
    !nonBlankPresent rc.topic && !nonBlankPresent rc.room_alias_name &&
    specDmVisibilityOk rc

/-- A concrete processed configuration: one admin `admin`, every gate
enabled, DM creation enabled, TTL 300 seconds. -/
def cfgC : ProcessedConfig :=
  { admin_usernames := ["admin"],
    allow_admin_invites_only := true,
    allow_admin_room_creation_only := true,
    allow_admin_aliases_only := true,
    allow_admin_publishing_only := true,
    allow_dm_creation := true,
    dm_invite_ttl_seconds := 300,
    invite_rejection_message := "Only server administrators may invite users. Please contact an admin.",
    room_creation_rejection_message := "Only server administrators may create new rooms/channels. Please contact an admin.",
    alias_rejection_message := "Only server administrators may create room aliases.",
    publish_rejection_message := "Only server administrators may publish rooms to the directory." }

/-- A raw configuration dictionary with every key absent. -/
def rawEmpty : RawConfig :=
  ⟨none, none, none, none, none, none, none, none, none, none, none⟩

/-- A raw configuration whose `allow_admin_invites_only` gating flag is the
integer `5`, not a boolean. -/
def rawNonBoolGate : RawConfig :=
  { rawEmpty with allow_admin_invites_only := some (JVal.jInt 5) }

/-- State with a single pending creation by `@alice:example.org` recorded at
time 0 and no tracked rooms. -/
def stPending : GardenState :=
  { dm_rooms := [], recent_dm_creations := [("@alice:example.org", 0)] }

/-- State with a single tracked DM room created by `@alice:example.org` at
time 0 and no pending creations. -/
def stTracked : GardenState :=
  { dm_rooms := [("!room:example.org", ⟨"@alice:example.org", 0⟩)],
    recent_dm_creations := [] }

theorem alookup_aerase_self {α : Type} (k : String) (l : List (String × α)) :
    alookup k (aerase k l) = none := by
  induction l with
  | nil => rfl
  | cons p rest ih =>
      obtain ⟨k1, v⟩ := p
      by_cases h : k1 = k
      · simpa [aerase, List.filter_cons, h] using ih
      · simpa [aerase, List.filter_cons, h, alookup] using ih

theorem alookup_aerase_ne {α : Type} (k k1 : String) (l : List (String × α))
    (h : k1 ≠ k) : alookup k1 (aerase k l) = alookup k1 l := by
  induction l with
  | nil => rfl
  | cons p rest ih =>
      obtain ⟨k2, v⟩ := p
      by_cases h2 : k2 = k
      · have h3 : ¬ (k2 = k1) := by
          intro hc
          exact h (hc ▸ h2)
        have hdrop : aerase k ((k2, v) :: rest) = aerase k rest := by
          simp [aerase, List.filter_cons, h2]
        rw [hdrop, ih]
        simp [alookup, h3]
      · have hkeep : aerase k ((k2, v) :: rest) = (k2, v) :: aerase k rest := by
          simp [aerase, List.filter_cons, h2]
        rw [hkeep]
        by_cases h4 : k2 = k1
        · simp [alookup, h4]
        · simp [alookup, h4, ih]

theorem alookup_aset_self {α : Type} (k : String) (v : α) (l : List (String × α)) :
    alookup k (aset k v l) = some v := by
  simp [aset, alookup]

theorem alookup_aset_ne {α : Type} (k k1 : String) (v : α) (l : List (String × α))
    (h : k1 ≠ k) : alookup k1 (aset k v l) = alookup k1 l := by
  have h2 : k ≠ k1 := fun hc => h hc.symm
  simp [aset, alookup, h2]
  exact alookup_aerase_ne k k1 l h

theorem alookup_filter_none {α : Type} (k : String) (p : String × α → Bool)
    (l : List (String × α)) (h : alookup k l = none) :
    alookup k (l.filter p) = none := by
  induction l with
  | nil => rfl
  | cons q rest ih =>
      obtain ⟨k1, v⟩ := q
      by_cases h1 : k1 = k
      · simp [alookup, h1] at h
      · simp [alookup, h1] at h
        cases h2 : p (k1, v) <;>
          simp [List.filter_cons, h2, alookup, h1] <;> exact ih h

theorem alookup_filter_some {α : Type} (k : String) (p : String × α → Bool)
    (l : List (String × α)) (v : α) (h : alookup k l = some v)
    (hp : p (k, v) = true) : alookup k (l.filter p) = some v := by
  induction l with
  | nil => simp [alookup] at h
  | cons q rest ih =>
      obtain ⟨k1, w⟩ := q
      by_cases h1 : k1 = k
      · simp [alookup, h1] at h
        subst h1 h
        simp [List.filter_cons, hp, alookup]
      · simp [alookup, h1] at h
        cases h2 : p (k1, w) <;>
          simp [List.filter_cons, h2, alookup, h1] <;> exact ih h

theorem cleanup_lookup_none (ttl now : Nat) (k : String) (rooms : DmRooms)
    (h : alookup k rooms = none) :
    alookup k (cleanupExpired ttl now rooms) = none :=
  alookup_filter_none k _ rooms h

theorem cleanup_lookup_some (ttl now : Nat) (k : String) (rooms : DmRooms)
    (info : TrackedInfo) (h : alookup k rooms = some info)
    (hage : ¬ (now - info.created_at > ttl)) :
    alookup k (cleanupExpired ttl now rooms) = some info := by
  refine alookup_filter_some k _ rooms info h ?_
  simpa using hage

theorem canInviteToDm_not_tracked (ttl now : Nat) (room_id u : String) (rooms : DmRooms)
    (h : alookup room_id rooms = none) :
    canInviteToDm ttl now room_id u rooms = (false, cleanupExpired ttl now rooms) := by
  simp [canInviteToDm, cleanup_lookup_none ttl now room_id rooms h]

theorem canInviteToDm_tracked (ttl now : Nat) (room_id u : String) (rooms : DmRooms)
    (info : TrackedInfo) (h : alookup room_id rooms = some info)
    (hage : ¬ (now - info.created_at > ttl)) :
    canInviteToDm ttl now room_id u rooms =
      (info.creator == u, cleanupExpired ttl now rooms) := by
  simp [canInviteToDm, cleanup_lookup_some ttl now room_id rooms info h hage]

theorem pyStripChars_eq_nil_iff (l : List Char) :
    pyStripChars l = [] ↔ ∀ c ∈ l, pyIsSpace c := by
  unfold pyStripChars
  rw [List.reverse_eq_nil_iff, List.dropWhile_eq_nil_iff]
  constructor
  · intro h c hc
    have hc2 : c ∈ List.takeWhile pyIsSpace l ++ List.dropWhile pyIsSpace l := by
      rw [List.takeWhile_append_dropWhile]
      exact hc
    rcases List.mem_append.mp hc2 with h1 | h2
    · exact List.mem_takeWhile_imp h1
    · exact h c (List.mem_reverse.mpr h2)
  · intro h c hc
    exact h c ((List.dropWhile_sublist pyIsSpace).mem (List.mem_reverse.mp hc))

theorem presentAndStripTruthy_eq (o : Option String) :
    presentAndStripTruthy o = nonBlankPresent o := by
  cases o with
  | none => rfl
  | some s =>
      show (!s.data.isEmpty && !(pyStripChars s.data).isEmpty) = s.data.any (fun c => !pyIsSpace c)
      by_cases hall : ∀ c ∈ s.data, pyIsSpace c
      · have h1 : pyStripChars s.data = [] := (pyStripChars_eq_nil_iff s.data).mpr hall
        have h2 : s.data.any (fun c => !pyIsSpace c) = false := by
          rw [List.any_eq_false]
          intro c hc
          simp [hall c hc]
        simp [h1, h2]
      · push_neg at hall
        obtain ⟨c, hc, hcs⟩ := hall
        have hne : s.data ≠ [] := List.ne_nil_of_mem hc
        have hemp : s.data.isEmpty = false := by
          cases hd : s.data with
          | nil => exact absurd hd hne
          | cons a as => rfl
        have hstrip : pyStripChars s.data ≠ [] := by
          intro hs
          exact hcs ((pyStripChars_eq_nil_iff s.data).mp hs c hc)
        have hstripEmp : (pyStripChars s.data).isEmpty = false := by
          cases hd : pyStripChars s.data with
          | nil => exact absurd hd hstrip
          | cons a as => rfl
        have hany : s.data.any (fun c => !pyIsSpace c) = true := by
          rw [List.any_eq_true]
          exact ⟨c, hc, by simp [hcs]⟩
        simp [hemp, hany, hstripEmp]

/-- C4: `_is_legitimate_dm_creation` returns true exactly when all six
conditions of the DM contract hold -- (1) direct flag or trusted-private-chat
preset, (2) at most one invitee, (3) no non-empty name, (4) no non-empty
topic, (5) no non-empty alias (non-empty meaning containing a non-whitespace
character), (6) visibility private or absent -- so violating any single
condition yields false. -/
theorem classify_iff_six_conditions (rc : RoomConfig) :
    isLegitimateDMCreation rc = specLegitimateDM rc := by
  unfold isLegitimateDMCreation specLegitimateDM specDmDirectFlag specDmInviteLenOk
    specDmVisibilityOk
  simp only [presentAndStripTruthy_eq]
  cases h1 : (rc.is_direct == some true || rc.preset == some "trusted_private_chat")
  · simp [h1]
  · by_cases h2 : (rc.invite.getD []).length > 1
    · have h2b : ¬ ((rc.invite.getD []).length ≤ 1) := by omega
      simp [h1, h2, h2b]
    · have h2b : (rc.invite.getD []).length ≤ 1 := by omega
      cases h3 : nonBlankPresent rc.name
      · cases h4 : nonBlankPresent rc.topic
        · cases h5 : nonBlankPresent rc.room_alias_name
          · cases h6 : rc.visibility with
            | none => simp [h1, h2, h2b, h3, h4, h5, h6]
            | some v =>
                by_cases h7 : v = "private" <;>
                  simp [h1, h2, h2b, h3, h4, h5, h6, h7]
          · simp [h1, h2, h2b, h3, h4, h5]
        · simp [h1, h2, h2b, h3, h4]
      · simp [h1, h2, h2b, h3]

/-- C10: a room-creation request with the direct flag, an empty invite list
and default visibility, whose name, topic and room-alias fields are strings
of whitespace only, is classified as a legitimate DM: whitespace-only values
are treated as absent rather than as disqualifying. -/
theorem whitespace_fields_treated_absent (nm tp al : String)
    (hnm : ∀ c ∈ nm.data, pyIsSpace c) (htp : ∀ c ∈ tp.data, pyIsSpace c)
    (hal : ∀ c ∈ al.data, pyIsSpace c) :
    isLegitimateDMCreation
      { is_direct := some true, preset := none, invite := some [], name := some nm,
        topic := some tp, room_alias_name := some al, visibility := none } = true := by
  have hb : ∀ (s : String), (∀ c ∈ s.data, pyIsSpace c) →
      presentAndStripTruthy (some s) = false := by
    intro s hs
    rw [presentAndStripTruthy_eq]
    show s.data.any (fun c => !pyIsSpace c) = false
    rw [List.any_eq_false]
    intro c hc
    simp [hs c hc]
  simp [isLegitimateDMCreation, hb nm hnm, hb tp htp, hb al hal]

theorem whitespace_fields_treated_absent_witness :
    (∀ c ∈ (" ").data, pyIsSpace c) ∧ (∀ c ∈ ("\t\t").data, pyIsSpace c) ∧
    (∀ c ∈ (" \n ").data, pyIsSpace c) ∧
    isLegitimateDMCreation
      { is_direct := some true, preset := none, invite := some [], name := some " ",
        topic := some "\t\t", room_alias_name := some " \n ", visibility := none } = true :=
  ⟨by decide, by decide, by decide,
   whitespace_fields_treated_absent " " "\t\t" " \n " (by decide) (by decide) (by decide)⟩

/-- C1 (failing interleaving): `user_may_invite` consumes a tracked DM room
by calling the lock-atomic `can_invite_to_dm` and then, after releasing the
lock, the lock-atomic `remove_dm_room`.  Interleaving two such consumptions
of the room tracked by `putTracked` as check, check, remove, remove lets
BOTH decisions take the allow path, so the "exactly one of N concurrent
consumptions succeeds" property fails on the code. -/
theorem concurrent_consumptions_both_succeed :
    (runSchedule 300 0 "!room:example.org" "@alice:example.org" [true, false, true, false]
        (⟨0, false⟩, ⟨0, false⟩,
         [("!room:example.org", ⟨"@alice:example.org", 0⟩)])).1.allowed = true ∧
    (runSchedule 300 0 "!room:example.org" "@alice:example.org" [true, false, true, false]
        (⟨0, false⟩, ⟨0, false⟩,
         [("!room:example.org", ⟨"@alice:example.org", 0⟩)])).2.1.allowed = true := by
  exact ⟨by decide, by decide⟩

/-- C2 (failing input): a pending creation recorded for `@alice:example.org`
at time 0 with TTL 300 is still honoured at time 301: the `user_may_invite`
fast path allows the invite and materializes a tracked room, and the
room-creation event observer still promotes the entry.  The timestamps
stored in `_recent_dm_creations` are never read, so pending entries never
expire. -/
theorem pending_entries_never_expire :
    userMayInvite cfgC 301 "@alice:example.org" "@bob:example.org" "!room:example.org"
        stPending =
      (.notSpam,
       { dm_rooms := [("!room:example.org", ⟨"@alice:example.org", 301⟩)],
         recent_dm_creations := [] }) ∧
    checkRoomCreationEvent cfgC 301
        ⟨some "m.room.create", some "!room:example.org", some "@alice:example.org"⟩
        stPending =
      (.notSpam,
       { dm_rooms := [("!room:example.org", ⟨"@alice:example.org", 301⟩)],
         recent_dm_creations := [] }) := by
  exact ⟨by decide, by decide⟩

/-- C3 counterexample: with a pending creation for `@alice:example.org` and
no tracked room, the fast-path invite decision at time 0 leaves a tracked
entry for the room (the claim says the fast path never materializes one),
and a second `mayInvite` by the same actor immediately afterwards is allowed
(the claim says it is denied). -/
theorem fastpath_materializes_tracked_cex :
    alookup "!room:example.org"
        ((userMayInvite cfgC 0 "@alice:example.org" "@bob:example.org" "!room:example.org"
            stPending).2.dm_rooms) =
      some ⟨"@alice:example.org", 0⟩ ∧
    (userMayInvite cfgC 0 "@alice:example.org" "@carol:example.org" "!room:example.org"
        (userMayInvite cfgC 0 "@alice:example.org" "@bob:example.org" "!room:example.org"
            stPending).2).1 = Verdict.notSpam := by
  exact ⟨by decide, by decide⟩

/-- C3 amended: the fast path consumes the pending entry and allows, but it
DOES materialize a tracked room for the invited room, owned by the actor;
consequently a second `mayInvite` by the same actor for that room is also
allowed (consuming the tracked entry) and only a third is denied. -/
theorem fastpath_tracks_room (cfg : ProcessedConfig) (now t0 : Nat)
    (A V W X roomId : String) (st : GardenState)
    (hgate : cfg.allow_admin_invites_only = true)
    (hdm : cfg.allow_dm_creation = true)
    (hadmin : isAdmin cfg A = false)
    (hpend : alookup A st.recent_dm_creations = some t0)
    (htracked : alookup roomId st.dm_rooms = none) :
    ∃ st1 st2 st3,
      userMayInvite cfg now A V roomId st = (.notSpam, st1) ∧
      alookup roomId st1.dm_rooms = some ⟨A, now⟩ ∧
      alookup A st1.recent_dm_creations = none ∧
      userMayInvite cfg now A W roomId st1 = (.notSpam, st2) ∧
      alookup roomId st2.dm_rooms = none ∧
      userMayInvite cfg now A X roomId st2 =
        (.forbidden cfg.invite_rejection_message, st3) := by
  have hcan1 := canInviteToDm_not_tracked cfg.dm_invite_ttl_seconds now roomId A
    st.dm_rooms htracked
  have hcall1 : userMayInvite cfg now A V roomId st =
      (Verdict.notSpam,
       ⟨aset roomId ⟨A, now⟩ (cleanupExpired cfg.dm_invite_ttl_seconds now st.dm_rooms),
        aerase A st.recent_dm_creations⟩) := by
    simp [userMayInvite, hgate, hadmin, hdm, hcan1, hpend, addDmRoom]
  have hlook1 : alookup roomId
      (aset roomId (⟨A, now⟩ : TrackedInfo)
        (cleanupExpired cfg.dm_invite_ttl_seconds now st.dm_rooms)) = some ⟨A, now⟩ :=
    alookup_aset_self roomId (⟨A, now⟩ : TrackedInfo) _
  have hage : ¬ (now - (⟨A, now⟩ : TrackedInfo).created_at > cfg.dm_invite_ttl_seconds) := by
    simp
  have hcan2 := canInviteToDm_tracked cfg.dm_invite_ttl_seconds now roomId A _ ⟨A, now⟩
    hlook1 hage
  have hcall2 : userMayInvite cfg now A W roomId
      ⟨aset roomId ⟨A, now⟩ (cleanupExpired cfg.dm_invite_ttl_seconds now st.dm_rooms),
       aerase A st.recent_dm_creations⟩ =
      (Verdict.notSpam,
       ⟨aerase roomId (cleanupExpired cfg.dm_invite_ttl_seconds now
          (aset roomId ⟨A, now⟩ (cleanupExpired cfg.dm_invite_ttl_seconds now st.dm_rooms))),
        aerase A st.recent_dm_creations⟩) := by
    simp [userMayInvite, hgate, hadmin, hdm, hcan2, removeDmRoom]
  have hcan3 := canInviteToDm_not_tracked cfg.dm_invite_ttl_seconds now roomId A
    (aerase roomId (cleanupExpired cfg.dm_invite_ttl_seconds now
      (aset roomId ⟨A, now⟩ (cleanupExpired cfg.dm_invite_ttl_seconds now st.dm_rooms))))
    (alookup_aerase_self roomId _)
  have hcall3 : userMayInvite cfg now A X roomId
      ⟨aerase roomId (cleanupExpired cfg.dm_invite_ttl_seconds now
          (aset roomId ⟨A, now⟩ (cleanupExpired cfg.dm_invite_ttl_seconds now st.dm_rooms))),
        aerase A st.recent_dm_creations⟩ =
      (Verdict.forbidden cfg.invite_rejection_message,
       ⟨cleanupExpired cfg.dm_invite_ttl_seconds now
          (aerase roomId (cleanupExpired cfg.dm_invite_ttl_seconds now
            (aset roomId ⟨A, now⟩ (cleanupExpired cfg.dm_invite_ttl_seconds now st.dm_rooms)))),
        aerase A st.recent_dm_creations⟩) := by
    simp [userMayInvite, hgate, hadmin, hdm, hcan3, alookup_aerase_self]
  refine ⟨_, _, _, hcall1, ?_, ?_, hcall2, ?_, hcall3⟩
  · exact hlook1
  · exact alookup_aerase_self A _
  · exact alookup_aerase_self roomId _

theorem fastpath_tracks_room_witness :
    ∃ st1 st2 st3,
      userMayInvite cfgC 0 "@alice:example.org" "@bob:example.org" "!room:example.org"
          stPending = (.notSpam, st1) ∧
      alookup "!room:example.org" st1.dm_rooms = some ⟨"@alice:example.org", 0⟩ ∧
      alookup "@alice:example.org" st1.recent_dm_creations = none ∧
      userMayInvite cfgC 0 "@alice:example.org" "@carol:example.org" "!room:example.org"
          st1 = (.notSpam, st2) ∧
      alookup "!room:example.org" st2.dm_rooms = none ∧
      userMayInvite cfgC 0 "@alice:example.org" "@dave:example.org" "!room:example.org"
          st2 = (.forbidden cfgC.invite_rejection_message, st3) :=
  fastpath_tracks_room cfgC 0 0 "@alice:example.org" "@bob:example.org" "@carol:example.org"
    "@dave:example.org" "!room:example.org" stPending (by decide) (by decide) (by decide)
    (by decide) (by decide)

theorem string_data_ne_nil {s : String} (h : s ≠ "") : s.data ≠ [] := by
  intro hd
  apply h
  cases s with
  | mk l =>
      simp only at hd
      rw [hd]

theorem optStrFalsy_some_false {s : String} (h : s ≠ "") :
    optStrFalsy (some s) = false := by
  show s.data.isEmpty = false
  cases hd : s.data with
  | nil => exact absurd hd (string_data_ne_nil h)
  | cons a as => rfl

/-- C5: for an unexpired tracked DM room recorded for creator U, an invite
decision by a different non-admin actor X with no pending creation of their
own is denied with the invite-rejection message, and the failed attempt does
not consume the tracked entry: it remains present, with U as creator,
for U's own invite. -/
theorem third_party_invite_denied (cfg : ProcessedConfig) (now tc : Nat)
    (U X V roomId : String) (st : GardenState)
    (hgate : cfg.allow_admin_invites_only = true)
    (hdm : cfg.allow_dm_creation = true)
    (hadmin : isAdmin cfg X = false)
    (hneq : U ≠ X)
    (htracked : alookup roomId st.dm_rooms = some ⟨U, tc⟩)
    (hage : ¬ (now - tc > cfg.dm_invite_ttl_seconds))
    (hnopend : alookup X st.recent_dm_creations = none) :
    ∃ st1,
      userMayInvite cfg now X V roomId st =
        (.forbidden cfg.invite_rejection_message, st1) ∧
      alookup roomId st1.dm_rooms = some ⟨U, tc⟩ ∧
      st1.recent_dm_creations = st.recent_dm_creations := by
  have hcan := canInviteToDm_tracked cfg.dm_invite_ttl_seconds now roomId X st.dm_rooms
    ⟨U, tc⟩ htracked hage
  have hbeq : ((⟨U, tc⟩ : TrackedInfo).creator == X) = false :=
    beq_eq_false_iff_ne.mpr hneq
  have hcall : userMayInvite cfg now X V roomId st =
      (.forbidden cfg.invite_rejection_message,
       ⟨cleanupExpired cfg.dm_invite_ttl_seconds now st.dm_rooms,
        st.recent_dm_creations⟩) := by
    simp [userMayInvite, hgate, hadmin, hdm, hcan, hbeq, hnopend]
  exact ⟨_, hcall, cleanup_lookup_some _ _ _ _ _ htracked hage, rfl⟩

theorem third_party_invite_denied_witness :
    ∃ st1,
      userMayInvite cfgC 10 "@mallory:example.org" "@bob:example.org" "!room:example.org"
          stTracked = (.forbidden cfgC.invite_rejection_message, st1) ∧
      alookup "!room:example.org" st1.dm_rooms = some ⟨"@alice:example.org", 0⟩ ∧
      st1.recent_dm_creations = stTracked.recent_dm_creations :=
  third_party_invite_denied cfgC 10 0 "@alice:example.org" "@mallory:example.org"
    "@bob:example.org" "!room:example.org" stTracked (by decide) (by decide) (by decide)
    (by decide) (by decide) (by decide) (by decide)

/-- C7: an actor whose local name (after stripping a leading `@` and
truncating at the first `:`) is in the configured admin set is allowed by
each of the four decision entry points for every payload whenever the
corresponding gate is enabled, and the correlation state is left unchanged. -/
theorem admin_always_allowed (cfg : ProcessedConfig) (now : Nat)
    (actor invitee roomId roomAlias : String) (rc : RoomConfig) (st : GardenState)
    (hadmin : cfg.admin_usernames.contains (extractUsername actor) = true) :
    (cfg.allow_admin_invites_only = true →
      userMayInvite cfg now actor invitee roomId st = (.notSpam, st)) ∧
    (cfg.allow_admin_room_creation_only = true →
      userMayCreateRoom cfg now actor rc st = (.notSpam, st)) ∧
    (cfg.allow_admin_aliases_only = true →
      userMayCreateRoomAlias cfg actor roomAlias = .notSpam) ∧
    (cfg.allow_admin_publishing_only = true →
      userMayPublishRoom cfg actor roomId = .notSpam) := by
  have hA : isAdmin cfg actor = true := hadmin
  refine ⟨?_, ?_, ?_, ?_⟩ <;> intro hg <;>
    simp [userMayInvite, userMayCreateRoom, userMayCreateRoomAlias, userMayPublishRoom,
      hg, hA]

theorem admin_always_allowed_witness :
    userMayInvite cfgC 0 "@admin:example.org" "@bob:example.org" "!room:example.org"
        stPending = (.notSpam, stPending) ∧
    userMayCreateRoom cfgC 0 "@admin:example.org"
        ⟨none, none, some ["@a:x", "@b:x"], some "Big Room", none, none, some "public"⟩
        stPending = (.notSpam, stPending) ∧
    userMayCreateRoomAlias cfgC "@admin:example.org" "#general:example.org" = .notSpam ∧
    userMayPublishRoom cfgC "@admin:example.org" "!room:example.org" = .notSpam := by
  have h := admin_always_allowed cfgC 0 "@admin:example.org" "@bob:example.org"
    "!room:example.org" "#general:example.org"
    ⟨none, none, some ["@a:x", "@b:x"], some "Big Room", none, none, some "public"⟩
    stPending (by decide)
  exact ⟨h.1 (by decide), h.2.1 (by decide), h.2.2.1 (by decide), h.2.2.2 (by decide)⟩

/-- C8: the non-admin end-to-end DM flow from the empty state: a DM-shaped
creation request is allowed and records a pending entry; the creation event
promotes it to a tracked entry and clears the pending one; the first invite
by the creator (within TTL of the tracked entry) is allowed and consumes the
tracked entry; a second invite is denied -- at most one invite decision
succeeds for the tracked room. -/
theorem dm_end_to_end (cfg : ProcessedConfig) (t0 t1 t2 t3 : Nat)
    (U V W roomId : String) (rc : RoomConfig)
    (hgateInv : cfg.allow_admin_invites_only = true)
    (hgateRoom : cfg.allow_admin_room_creation_only = true)
    (hdm : cfg.allow_dm_creation = true)
    (hadmin : isAdmin cfg U = false)
    (hshape : isLegitimateDMCreation rc = true)
    (hU : U ≠ "") (hroom : roomId ≠ "")
    (hage : ¬ (t2 - t1 > cfg.dm_invite_ttl_seconds)) :
    ∃ st1 st2 st3 st4,
      userMayCreateRoom cfg t0 U rc ⟨[], []⟩ = (.notSpam, st1) ∧
      alookup U st1.recent_dm_creations = some t0 ∧
      checkRoomCreationEvent cfg t1 ⟨some "m.room.create", some roomId, some U⟩ st1 =
        (.notSpam, st2) ∧
      alookup roomId st2.dm_rooms = some ⟨U, t1⟩ ∧
      alookup U st2.recent_dm_creations = none ∧
      userMayInvite cfg t2 U V roomId st2 = (.notSpam, st3) ∧
      alookup roomId st3.dm_rooms = none ∧
      userMayInvite cfg t3 U W roomId st3 =
        (.forbidden cfg.invite_rejection_message, st4) := by
  have hcall1 : userMayCreateRoom cfg t0 U rc ⟨[], []⟩ =
      (Verdict.notSpam, ⟨[], [(U, t0)]⟩) := by
    simp [userMayCreateRoom, hgateRoom, hadmin, hdm, hshape, aset, aerase]
  have hcall2 : checkRoomCreationEvent cfg t1 ⟨some "m.room.create", some roomId, some U⟩
      (⟨[], [(U, t0)]⟩ : GardenState) =
      (Verdict.notSpam, ⟨[(roomId, ⟨U, t1⟩)], []⟩) := by
    simp [checkRoomCreationEvent, optStrFalsy_some_false hU, optStrFalsy_some_false hroom,
      hdm, alookup, canInviteToDm, cleanupExpired, addDmRoom, aset, aerase]
  have hcan3 : canInviteToDm cfg.dm_invite_ttl_seconds t2 roomId U
      ([(roomId, ⟨U, t1⟩)] : DmRooms) = (true, [(roomId, ⟨U, t1⟩)]) := by
    have h1 : alookup roomId ([(roomId, ⟨U, t1⟩)] : DmRooms) = some ⟨U, t1⟩ := by
      simp [alookup]
    rw [canInviteToDm_tracked cfg.dm_invite_ttl_seconds t2 roomId U _ ⟨U, t1⟩ h1 hage]
    simp [cleanupExpired, hage]
    omega
  have hcall3 : userMayInvite cfg t2 U V roomId (⟨[(roomId, ⟨U, t1⟩)], []⟩ : GardenState) =
      (Verdict.notSpam, ⟨[], []⟩) := by
    simp [userMayInvite, hgateInv, hadmin, hdm, hcan3, removeDmRoom, aerase]
  have hcall4 : userMayInvite cfg t3 U W roomId (⟨[], []⟩ : GardenState) =
      (Verdict.forbidden cfg.invite_rejection_message, ⟨[], []⟩) := by
    simp [userMayInvite, hgateInv, hadmin, hdm, canInviteToDm, cleanupExpired, alookup]
  refine ⟨_, _, _, _, hcall1, ?_, hcall2, ?_, ?_, hcall3, ?_, hcall4⟩ <;> simp [alookup]

theorem dm_end_to_end_witness :
    ∃ st1 st2 st3 st4,
      userMayCreateRoom cfgC 1 "@alice:example.org"
          ⟨some true, none, some ["@bob:example.org"], none, none, none, none⟩
          ⟨[], []⟩ = (.notSpam, st1) ∧
      alookup "@alice:example.org" st1.recent_dm_creations = some 1 ∧
      checkRoomCreationEvent cfgC 2
          ⟨some "m.room.create", some "!room:example.org", some "@alice:example.org"⟩ st1 =
        (.notSpam, st2) ∧
      alookup "!room:example.org" st2.dm_rooms = some ⟨"@alice:example.org", 2⟩ ∧
      alookup "@alice:example.org" st2.recent_dm_creations = none ∧
      userMayInvite cfgC 3 "@alice:example.org" "@bob:example.org" "!room:example.org" st2 =
        (.notSpam, st3) ∧
      alookup "!room:example.org" st3.dm_rooms = none ∧
      userMayInvite cfgC 4 "@alice:example.org" "@carol:example.org" "!room:example.org"
          st3 = (.forbidden cfgC.invite_rejection_message, st4) :=
  dm_end_to_end cfgC 1 2 3 4 "@alice:example.org" "@bob:example.org" "@carol:example.org"
    "!room:example.org" ⟨some true, none, some ["@bob:example.org"], none, none, none, none⟩
    (by decide) (by decide) (by decide) (by decide) (by decide) (by decide) (by decide)
    (by decide)

/-- C9: the event observer returns `NOT_SPAM` and leaves both correlation
tables unchanged for any event whose type is not `m.room.create` or whose
room identifier or sender is missing; and a repeated delivery of a creation
event after the sender's pending entry has been consumed is a no-op, so
event delivery is idempotent. -/
theorem event_observer_ignores_and_idempotent (cfg : ProcessedConfig) (now : Nat)
    (ev : CreateEvent) (st : GardenState) :
    ((ev.type ≠ some "m.room.create" ∨ ev.room_id = none ∨ ev.sender = none) →
      checkRoomCreationEvent cfg now ev st = (.notSpam, st)) ∧
    (∀ s, ev.sender = some s → alookup s st.recent_dm_creations = none →
      checkRoomCreationEvent cfg now ev st = (.notSpam, st)) := by
  constructor
  · intro h
    by_cases ht : ev.type = some "m.room.create"
    · rcases h with h | h | h
      · exact absurd ht h
      · simp [checkRoomCreationEvent, ht, h, optStrFalsy]
      · simp [checkRoomCreationEvent, ht, h, optStrFalsy]
    · simp [checkRoomCreationEvent, ht]
  · intro s hs hlook
    by_cases ht : ev.type = some "m.room.create"
    · by_cases hf : (optStrFalsy ev.room_id || optStrFalsy ev.sender ||
          !cfg.allow_dm_creation) = true
      · simp [checkRoomCreationEvent, ht, hf]
      · simp [checkRoomCreationEvent, ht, hf, hs, hlook]
    · simp [checkRoomCreationEvent, ht]

theorem event_observer_witness :
    checkRoomCreationEvent cfgC 0
        ⟨some "m.room.member", some "!room:example.org", some "@alice:example.org"⟩
        stPending = (.notSpam, stPending) ∧
    checkRoomCreationEvent cfgC 0
        ⟨some "m.room.create", some "!room:example.org", some "@bob:example.org"⟩
        stPending = (.notSpam, stPending) :=
  ⟨(event_observer_ignores_and_idempotent cfgC 0
      ⟨some "m.room.member", some "!room:example.org", some "@alice:example.org"⟩
      stPending).1 (Or.inl (by decide)),
   (event_observer_ignores_and_idempotent cfgC 0
      ⟨some "m.room.create", some "!room:example.org", some "@bob:example.org"⟩
      stPending).2 "@bob:example.org" rfl (by decide)⟩

theorem validateAdminNames_spec (xs : List JVal) :
    exceptIsError (validateAdminNames xs) = xs.any adminNameBad ∧
    (xs.any adminNameBad = false → validateAdminNames xs = .ok (goodAdminNames xs)) := by
  induction xs with
  | nil => exact ⟨rfl, fun _ => rfl⟩
  | cons v rest ih =>
      obtain ⟨ih1, ih2⟩ := ih
      cases v with
      | jBool b =>
          refine ⟨by simp [validateAdminNames, validateAdminName, exceptIsError, adminNameBad], ?_⟩
          intro h
          simp [adminNameBad] at h
      | jInt n =>
          refine ⟨by simp [validateAdminNames, validateAdminName, exceptIsError, adminNameBad], ?_⟩
          intro h
          simp [adminNameBad] at h
      | jList ys =>
          refine ⟨by simp [validateAdminNames, validateAdminName, exceptIsError, adminNameBad], ?_⟩
          intro h
          simp [adminNameBad] at h
      | jStr s =>
          by_cases hs : (s.contains '@' || s.contains ':') = true
          · refine ⟨by simp [validateAdminNames, validateAdminName, hs, exceptIsError, adminNameBad], ?_⟩
            intro h
            simp [adminNameBad, hs] at h
          · have hsf : (s.contains '@' || s.contains ':') = false :=
              Bool.eq_false_iff.mpr hs
            cases hrest : validateAdminNames rest with
            | error e =>
                have h1 : rest.any adminNameBad = true := by
                  rw [← ih1, hrest]
                  rfl
                refine ⟨by simp [validateAdminNames, validateAdminName, hsf, hrest,
                  exceptIsError, adminNameBad, h1], ?_⟩
                intro h
                simp [adminNameBad, hsf, h1] at h
            | ok ss =>
                have h1 : rest.any adminNameBad = false := by
                  rw [← ih1, hrest]
                  rfl
                have h2 := ih2 h1
                rw [hrest] at h2
                injection h2 with h3
                refine ⟨by simp [validateAdminNames, validateAdminName, hsf, hrest,
                  exceptIsError, adminNameBad, h1], ?_⟩
                intro h
                simp [validateAdminNames, validateAdminName, hsf, hrest, h3,
                  goodAdminNames, List.filterMap_cons]

/-- C6 amended: `_parse_and_validate_config` raises a `ConfigError` exactly
when the admin-username list is not a list or contains a non-string or a
name with `@` or `:`, or `allow_dm_creation` is not a boolean, or
`dm_invite_ttl_seconds` is not a positive Python integer (a Python bool
counts as an integer).  The four gating flags are never validated, and every
accepted configuration is processed with the documented defaults filled in. -/
theorem parse_config_rejects_iff (c : RawConfig) :
    exceptIsError (parseAndValidateConfig c) = configRejected c ∧
    (configRejected c = false → parseAndValidateConfig c = .ok (fillDefaults c)) := by
  unfold parseAndValidateConfig configRejected fillDefaults
  cases hA : c.admin_usernames.getD (JVal.jList []) with
  | jBool b => exact ⟨rfl, by intro h; simp at h⟩
  | jInt n => exact ⟨rfl, by intro h; simp at h⟩
  | jStr s => exact ⟨rfl, by intro h; simp at h⟩
  | jList xs =>
      obtain ⟨v1, v2⟩ := validateAdminNames_spec xs
      cases hv : validateAdminNames xs with
      | error e =>
          have h1 : xs.any adminNameBad = true := by
            rw [← v1, hv]
            rfl
          refine ⟨by simp [hv, h1, exceptIsError], ?_⟩
          intro h
          simp [h1] at h
      | ok names =>
          have h1 : xs.any adminNameBad = false := by
            rw [← v1, hv]
            rfl
          have h2 := v2 h1
          rw [hv] at h2
          injection h2 with h3
          cases hD : c.allow_dm_creation.getD (JVal.jBool false) with
          | jInt n =>
              refine ⟨by simp [hv, exceptIsError], ?_⟩
              intro h
              simp [h1] at h
          | jStr s =>
              refine ⟨by simp [hv, exceptIsError], ?_⟩
              intro h
              simp [h1] at h
          | jList ys =>
              refine ⟨by simp [hv, exceptIsError], ?_⟩
              intro h
              simp [h1] at h
          | jBool b =>
              by_cases h5 :
                  pyIsInstanceInt (c.dm_invite_ttl_seconds.getD (JVal.jInt 300)) = true
              · by_cases h6 :
                    pyIntValue (c.dm_invite_ttl_seconds.getD (JVal.jInt 300)) ≤ 0
                · refine ⟨by simp [hv, exceptIsError, h5, h6, h1], ?_⟩
                  intro h
                  simp [h1, h5, h6] at h
                · refine ⟨by simp [hv, exceptIsError, h5, h6, h1], ?_⟩
                  intro h
                  simp [hv, h5, h6, h3]
              · have h5f : pyIsInstanceInt (c.dm_invite_ttl_seconds.getD (JVal.jInt 300))
                    = false := Bool.eq_false_iff.mpr h5
                refine ⟨by simp [hv, exceptIsError, h5f, h1], ?_⟩
                intro h
                simp [h1, h5f] at h

theorem parse_config_rejects_iff_witness :
    exceptIsError (parseAndValidateConfig rawEmpty) = configRejected rawEmpty ∧
    parseAndValidateConfig rawEmpty = .ok (fillDefaults rawEmpty) :=
  ⟨(parse_config_rejects_iff rawEmpty).1, (parse_config_rejects_iff rawEmpty).2 (by rfl)⟩

/-- C6 counterexample: a configuration whose gating flag
`allow_admin_invites_only` is the integer `5`, not a boolean, is accepted by
`_parse_and_validate_config` (with the non-boolean value stored in the
processed dictionary) instead of being rejected with a `ConfigError`. -/
theorem nonbool_gate_accepted_cex :
    parseAndValidateConfig rawNonBoolGate = .ok (fillDefaults rawNonBoolGate) ∧
    (fillDefaults rawNonBoolGate).allow_admin_invites_only = JVal.jInt 5 :=
  ⟨rfl, rfl⟩

end WalledGardenModel
